import Mathlib

/-!
Shallow embedding of `src/skyvern/webeye/browser_manager.py`: the
`BrowserManager` browser-session lifecycle registry, its creation,
aliasing, teardown and artifact-retrieval operations.

The Python registry `BrowserManager.pages` is a `dict[str, BrowserState]`
whose values are shared mutable objects; we model it as an association
list from keys to session identifiers plus a heap from session
identifiers to session data, so aliasing ("two keys hold the same
object") is identifier equality.  Side effects that matter to the claims
(closing a session, stopping tracing, logging a close-timeout warning)
are recorded in an event log.
-/

namespace BrowserManagerModel

/-- Python truthiness of a `str | None` value: `None` and `""` are falsy. -/
def optStrTruthy : Option String → Bool
  | none => false
  | some s => !(s == "")

/-- `d[k]` lookup for a Python-dict-like association list (first match). -/
def dictLookup (d : List (String × Nat)) (k : String) : Option Nat :=
  match d with
  | [] => none
  | (k', v) :: rest => if k' = k then some v else dictLookup rest k

/-- `d[k] = v` for a Python dict: update in place if the key exists,
else append at the end (Python dicts are insertion ordered). -/
def dictInsert (d : List (String × Nat)) (k : String) (v : Nat) : List (String × Nat) :=
  match d with
  | [] => [(k, v)]
  | (k', v') :: rest => if k' = k then (k, v) :: rest else (k', v') :: dictInsert rest k v

/-- `d.pop(k, None)`: remove the key's entry.  On the canonical
(duplicate-free) lists that represent Python dicts this is removal of
the unique entry; we remove every entry with the key so the equations
hold on all lists. -/
def dictPop (d : List (String × Nat)) (k : String) : List (String × Nat) :=
  match d with
  | [] => []
  | (k1, v) :: rest => if k1 = k then dictPop rest k else (k1, v) :: dictPop rest k

/-- `d.values()` in insertion order (duplicates included, as in Python). -/
def dictValues (d : List (String × Nat)) : List Nat :=
  d.map Prod.snd

/-- Modelled from the spec: one recording descriptor (`VideoArtifact` from
`skyvern.webeye.browser_factory`, whose source is not part of this
repository slice): "each recording descriptor holding a storage path and
an optional in-memory byte payload (populated lazily on retrieval)". -/
structure VideoArtifact where
  video_path : Option String
  video_data : Option (List Nat)
  deriving Repr, DecidableEq

/-- Modelled from the spec: the session's artifact bundle
(`BrowserArtifacts` from `skyvern.webeye.browser_factory`): "paths (or
absence thereof) for a network-capture file, a diagnostic-trace
directory, and zero-or-more recording descriptors". -/
structure BrowserArtifacts where
  video_artifacts : List VideoArtifact
  har_path : Option String
  traces_dir : Option String
  deriving Repr, DecidableEq

/-- A page handle; carries the URL it was opened on (possibly absent). -/
structure PageData where
  url : Option String
  deriving Repr, DecidableEq

/-- The per-session data of a `BrowserState` object.  `closeDuration`
models the abstract time the external driver's trace-stop-and-close
sequence takes, used to decide whether a bounded close finishes within
`BROWSER_CLOSE_TIMEOUT`. -/
structure BrowserStateData where
  page : Option PageData
  browser_context : Bool
  artifacts : BrowserArtifacts
  closeDuration : Nat
  deriving Repr, DecidableEq

/-- Default session data used only to totalize heap lookups; never
registered by any operation (note `page = none`). -/
def defaultBSD : BrowserStateData :=
  { page := none, browser_context := false
    artifacts := { video_artifacts := [], har_path := none, traces_dir := none }
    closeDuration := 0 }

/-- Heap lookup by session identifier (first match). -/
def heapGet (h : List (Nat × BrowserStateData)) (sid : Nat) : Option BrowserStateData :=
  match h with
  | [] => none
  | (i, d) :: rest => if i = sid then some d else heapGet rest sid

/-- Totalized heap lookup. -/
def heapGetD (h : List (Nat × BrowserStateData)) (sid : Nat) : BrowserStateData :=
  (heapGet h sid).getD defaultBSD

/-- Apply `f` to the session data stored at `sid` (first match). -/
def heapSet (h : List (Nat × BrowserStateData)) (sid : Nat)
    (f : BrowserStateData → BrowserStateData) : List (Nat × BrowserStateData) :=
  match h with
  | [] => []
  | (i, d) :: rest => if i = sid then (i, f d) :: rest else (i, d) :: heapSet rest sid f

/-- Observable side effects of the registry's operations. -/
inductive Event where
  | closed (sid : Nat) (close_browser_on_completion : Bool)
  | traceStopped (sid : Nat) (path : String)
  | timeoutWarn (key : String)
  deriving Repr, DecidableEq

/-- The whole registry state: `pages` is `BrowserManager.pages`, `heap`
gives each session identifier its object state, `nextId` allocates fresh
identifiers, `events` logs the observable side effects. -/
structure Manager where
  pages : List (String × Nat)
  heap : List (Nat × BrowserStateData)
  nextId : Nat
  events : List Event
  deriving Repr, DecidableEq

/-- The empty registry, as at process start. -/
def Manager.init : Manager :=
  { pages := [], heap := [], nextId := 0, events := [] }

/-- Modelled from the spec: `BROWSER_CLOSE_TIMEOUT` from
`skyvern.constants` (not in this repository slice), "a fixed deadline (a
constant close timeout)". -/
def BROWSER_CLOSE_TIMEOUT : Nat := 180

/-- A `Task` record's fields consumed by the registry. -/
structure Task where
  task_id : String
  workflow_run_id : Option String
  url : Option String
  proxy_location : Option String
  organization_id : Option String
  deriving Repr, DecidableEq

/-- A `WorkflowRun` record's fields consumed by the registry. -/
structure WorkflowRun where
  workflow_run_id : String
  proxy_location : Option String
  organization_id : Option String
  deriving Repr, DecidableEq

/-- Outcome supplied by the external Automation Driver for one creation
attempt: `BrowserContextFactory.create_browser_context` may fail,
`get_or_create_page` may fail, or both succeed yielding the new
session's artifact bundle and close duration. -/
inductive DriverResult where
  | failCreate (e : Nat)
  | failEnsurePage (e : Nat)
  | ok (artifacts : BrowserArtifacts) (closeDuration : Nat)
  deriving Repr, DecidableEq

/-- Modelled from the spec: `BrowserState.get_or_create_page` (source in
`skyvern.webeye.browser_factory`, not in this repository slice) is
"idempotent: no-op if a page already exists", otherwise it creates a
page bound to the target URL: "creation always materializes at least one
page". -/
def getOrCreatePage (d : BrowserStateData) (url : Option String) : BrowserStateData :=
  match d.page with
  | some _ => d
  | none => { d with page := some { url := url } }

/-- `BrowserManager.get_or_create_for_task` (browser_manager.py lines
56-85).  Returns the session identifier (or the driver's error,
propagated uncaught) together with the registry state after the call. -/
def get_or_create_for_task (m : Manager) (task : Task) (drv : DriverResult) :
    Except Nat Nat × Manager :=
  match dictLookup m.pages task.task_id with
  | some sid => (.ok sid, m)
  | none =>
    match task.workflow_run_id.bind (fun w => dictLookup m.pages w) with
    | some sid =>
        (.ok sid, { m with pages := dictInsert m.pages task.task_id sid })
    | none =>
      match drv with
      | .failCreate e => (.error e, m)
      | .failEnsurePage e =>
          -- the session object was built with `page=None` but the page
          -- creation raised before any registry assignment ran
          (.error e,
            { m with
              heap := (m.nextId,
                { page := none, browser_context := true
                  artifacts := { video_artifacts := [], har_path := none, traces_dir := none }
                  closeDuration := 0 }) :: m.heap
              nextId := m.nextId + 1 })
      | .ok arts dur =>
          let sid := m.nextId
          let d0 : BrowserStateData :=
            { page := none, browser_context := true, artifacts := arts, closeDuration := dur }
          let d := getOrCreatePage d0 task.url
          let pages1 := dictInsert m.pages task.task_id sid
          let pages2 :=
            if optStrTruthy task.workflow_run_id then
              dictInsert pages1 (task.workflow_run_id.getD "") sid
            else pages1
          (.ok sid,
            { m with pages := pages2, heap := (sid, d) :: m.heap, nextId := m.nextId + 1 })

/-- `BrowserManager.get_or_create_for_workflow_run` (lines 87-111). -/
def get_or_create_for_workflow_run (m : Manager) (wr : WorkflowRun) (url : Option String)
    (drv : DriverResult) : Except Nat Nat × Manager :=
  match dictLookup m.pages wr.workflow_run_id with
  | some sid => (.ok sid, m)
  | none =>
    match drv with
    | .failCreate e => (.error e, m)
    | .failEnsurePage e =>
        (.error e,
          { m with
            heap := (m.nextId,
              { page := none, browser_context := true
                artifacts := { video_artifacts := [], har_path := none, traces_dir := none }
                closeDuration := 0 }) :: m.heap
            nextId := m.nextId + 1 })
    | .ok arts dur =>
        let sid := m.nextId
        let d0 : BrowserStateData :=
          { page := none, browser_context := true, artifacts := arts, closeDuration := dur }
        let d := getOrCreatePage d0 url
        let pages1 := dictInsert m.pages wr.workflow_run_id sid
        (.ok sid, { m with pages := pages1, heap := (sid, d) :: m.heap, nextId := m.nextId + 1 })

/-- `BrowserManager.get_for_workflow_run` (lines 113-116): pure lookup. -/
def get_for_workflow_run (m : Manager) (workflow_run_id : String) : Option Nat :=
  dictLookup m.pages workflow_run_id

/-- The assignment `browser_state.browser_artifacts.video_artifacts =
artifacts` performed by `set_video_artifact_for_task`. -/
def attachVideo (artifacts : List VideoArtifact) (d : BrowserStateData) : BrowserStateData :=
  { d with artifacts := { d.artifacts with video_artifacts := artifacts } }

/-- `BrowserManager.set_video_artifact_for_task` (lines 118-126).
Raises `MissingBrowserState` (modelled as `.error`) when neither key
resolves. -/
def set_video_artifact_for_task (m : Manager) (task : Task)
    (artifacts : List VideoArtifact) : Except Unit Unit × Manager :=
  let attach : BrowserStateData → BrowserStateData := attachVideo artifacts
  if optStrTruthy task.workflow_run_id
      && (dictLookup m.pages (task.workflow_run_id.getD "")).isSome then
    match dictLookup m.pages (task.workflow_run_id.getD "") with
    | some sid => (.ok (), { m with heap := heapSet m.heap sid attach })
    | none => (.error (), m)
  else
    match dictLookup m.pages task.task_id with
    | some sid => (.ok (), { m with heap := heapSet m.heap sid attach })
    | none => (.error (), m)

/-- `BrowserManager.get_video_artifacts` (lines 128-150).  `fs` models
durable storage: the file contents at a path, when the path exists.
Returns the (possibly payload-filled) descriptor list and the mutated
session data; a total function, mirroring that the Python never raises
for missing files. -/
def get_video_artifacts (fs : String → Option (List Nat)) (d : BrowserStateData) :
    List VideoArtifact × BrowserStateData :=
  if d.artifacts.video_artifacts.length = 0 then
    ([], d)
  else
    let vas := d.artifacts.video_artifacts.map (fun va =>
      if optStrTruthy va.video_path then
        match fs (va.video_path.getD "") with
        | some bytes => { va with video_data := some bytes }
        | none => va
      else va)
    (vas, { d with artifacts := { d.artifacts with video_artifacts := vas } })

/-- `BrowserManager.get_har_data` (lines 152-170).  Total: a missing
session, path or file yields the empty byte sequence. -/
def get_har_data (fs : String → Option (List Nat)) (bs : Option BrowserStateData) :
    List Nat :=
  match bs with
  | some d =>
    if optStrTruthy d.artifacts.har_path then
      match fs (d.artifacts.har_path.getD "") with
      | some bytes => bytes
      | none => []
    else []
  | none => []

/-- `BrowserManager.close` (lines 172-178): close every value of the
`pages` dict in iteration order (aliased entries repeat their session),
then reset the dict to empty.  `close()` is called with the default
`close_browser_on_completion=True`. -/
def closeAll (m : Manager) : Manager :=
  let evs := (dictValues m.pages).map (fun sid => Event.closed sid true)
  { m with pages := [], events := m.events ++ evs }

/-- The trace path `f"{traces_dir}/{key}.zip"`. -/
def tracePath (traces_dir key : String) : String :=
  traces_dir ++ "/" ++ key ++ ".zip"

/-- The trace-stop-then-close event sequence shared by both teardown
paths (browser_manager.py lines 187-191 and 207-213): stop tracing when
a context and a traces directory are configured, then close. -/
def teardownEvents (d : BrowserStateData) (sid : Nat) (key : String)
    (close_browser_on_completion : Bool) : List Event :=
  (if d.browser_context && optStrTruthy d.artifacts.traces_dir then
    [Event.traceStopped sid (tracePath (d.artifacts.traces_dir.getD "") key)]
  else []) ++ [Event.closed sid close_browser_on_completion]

/-- `BrowserManager.cleanup_for_task` (lines 180-196): pop the key
first, then run trace-stop and close under `asyncio.timeout
(BROWSER_CLOSE_TIMEOUT)`; if the deadline is exceeded the block is
abandoned and the `TimeoutError` is caught and logged. -/
def cleanup_for_task (m : Manager) (task_id : String)
    (close_browser_on_completion : Bool) : Option Nat × Manager :=
  match dictLookup m.pages task_id with
  | none => (none, { m with pages := dictPop m.pages task_id })
  | some sid =>
    let m1 := { m with pages := dictPop m.pages task_id }
    let d := heapGetD m1.heap sid
    if d.closeDuration ≤ BROWSER_CLOSE_TIMEOUT then
      let evs := teardownEvents d sid task_id close_browser_on_completion
      (some sid, { m1 with events := m1.events ++ evs })
    else
      (some sid, { m1 with events := m1.events ++ [Event.timeoutWarn task_id] })

/-- `BrowserManager.cleanup_for_workflow_run` (lines 198-218): pop the
workflow-run key, trace-stop and close its session (with no timeout
wrapper), then pop every task key without closing it. -/
def cleanup_for_workflow_run (m : Manager) (workflow_run_id : String)
    (task_ids : List String) (close_browser_on_completion : Bool) : Option Nat × Manager :=
  let found := dictLookup m.pages workflow_run_id
  let m1 := { m with pages := dictPop m.pages workflow_run_id }
  let m2 :=
    match found with
    | some sid =>
      let d := heapGetD m1.heap sid
      let evs := teardownEvents d sid workflow_run_id close_browser_on_completion
      { m1 with events := m1.events ++ evs }
    | none => m1
  (found, { m2 with pages := task_ids.foldl dictPop m2.pages })

/-- Number of registry keys referencing a given session (the session's
fan-in). -/
def fanIn (pages : List (String × Nat)) (sid : Nat) : Nat :=
  (pages.filter (fun p => p.2 == sid)).length

/-- Number of times a session has been closed, per the event log. -/
def countClosed (events : List Event) (sid : Nat) : Nat :=
  (events.filter (fun e => match e with
    | Event.closed s _ => s == sid
    | _ => false)).length

/-! ### Lemmas about the dict, heap and event-count helpers -/

theorem dictLookup_insert (d : List (String × Nat)) (k : String) (v : Nat) (q : String) :
    dictLookup (dictInsert d k v) q = if k = q then some v else dictLookup d q := by
  induction d with
  | nil =>
    by_cases h : k = q <;> simp [dictInsert, dictLookup, h]
  | cons p rest ih =>
    obtain ⟨k1, v1⟩ := p
    by_cases h1 : k1 = k
    · subst h1
      by_cases h2 : k1 = q <;> simp [dictInsert, dictLookup, h2]
    · by_cases h2 : k1 = q
      · subst h2
        have hkq : ¬ k = k1 := fun h => h1 h.symm
        simp [dictInsert, dictLookup, h1, hkq]
      · simp [dictInsert, dictLookup, h1, h2, ih]

theorem dictLookup_pop (d : List (String × Nat)) (k : String) (q : String) :
    dictLookup (dictPop d k) q = if k = q then none else dictLookup d q := by
  induction d with
  | nil => by_cases h : k = q <;> simp [dictPop, dictLookup, h]
  | cons p rest ih =>
    obtain ⟨k1, v1⟩ := p
    by_cases h1 : k1 = k
    · subst h1
      by_cases h2 : k1 = q
      · subst h2
        simpa [dictPop, dictLookup] using ih
      · simp [dictPop, dictLookup, h2, ih]
    · by_cases h2 : k1 = q
      · subst h2
        have hkq : ¬ k = k1 := fun h => h1 h.symm
        simp [dictPop, dictLookup, h1, hkq]
      · simp [dictPop, dictLookup, h1, h2, ih]

theorem dictLookup_foldl_pop_none (ts : List String) (d : List (String × Nat)) (k : String)
    (h : dictLookup d k = none) : dictLookup (ts.foldl dictPop d) k = none := by
  induction ts generalizing d with
  | nil => simpa using h
  | cons t ts ih =>
    refine ih (dictPop d t) ?_
    rw [dictLookup_pop]
    by_cases h1 : t = k <;> simp [h1, h]

theorem dictLookup_foldl_pop_mem (ts : List String) (d : List (String × Nat)) (k : String)
    (h : k ∈ ts) : dictLookup (ts.foldl dictPop d) k = none := by
  induction ts generalizing d with
  | nil => cases h
  | cons t ts ih =>
    rcases List.mem_cons.mp h with h1 | h1
    · subst h1
      exact dictLookup_foldl_pop_none ts (dictPop d k) k (by simp [dictLookup_pop])
    · exact ih (dictPop d t) h1

theorem dictLookup_foldl_pop_some (ts : List String) (d : List (String × Nat)) (k : String)
    (v : Nat) (h : dictLookup (ts.foldl dictPop d) k = some v) : dictLookup d k = some v := by
  induction ts generalizing d with
  | nil => simpa using h
  | cons t ts ih =>
    have h2 := ih (dictPop d t) h
    rw [dictLookup_pop] at h2
    by_cases h1 : t = k
    · simp [h1] at h2
    · simpa [h1] using h2

theorem dictInsert_of_lookup_none (d : List (String × Nat)) (k : String) (v : Nat)
    (h : dictLookup d k = none) : dictInsert d k v = d ++ [(k, v)] := by
  induction d with
  | nil => rfl
  | cons p rest ih =>
    obtain ⟨k1, v1⟩ := p
    by_cases h1 : k1 = k
    · simp [dictLookup, h1] at h
    · simp [dictLookup, h1] at h
      simp [dictInsert, h1, ih h]

theorem dictInsert_of_lookup_self (d : List (String × Nat)) (k : String) (v : Nat)
    (h : dictLookup d k = some v) : dictInsert d k v = d := by
  induction d with
  | nil => simp [dictLookup] at h
  | cons p rest ih =>
    obtain ⟨k1, v1⟩ := p
    by_cases h1 : k1 = k
    · simp [dictLookup, h1] at h
      simp [dictInsert, h1, h]
    · simp [dictLookup, h1] at h
      simp [dictInsert, h1, ih h]

theorem fanIn_append (d e : List (String × Nat)) (s : Nat) :
    fanIn (d ++ e) s = fanIn d s + fanIn e s := by
  simp [fanIn, List.filter_append]

theorem fanIn_single (k : String) (v s : Nat) :
    fanIn [(k, v)] s = if v = s then 1 else 0 := by
  by_cases h : v = s
  · simp [fanIn, h]
  · have hb : (v == s) = false := by simpa using h
    simp [fanIn, hb, h]

theorem countClosed_append (e1 e2 : List Event) (s : Nat) :
    countClosed (e1 ++ e2) s = countClosed e1 s + countClosed e2 s := by
  simp [countClosed, List.filter_append]

theorem countClosed_values (d : List (String × Nat)) (s : Nat) :
    countClosed ((dictValues d).map (fun sid => Event.closed sid true)) s = fanIn d s := by
  induction d with
  | nil => rfl
  | cons p rest ih =>
    by_cases h : p.2 = s <;>
      simp [dictValues, countClosed, fanIn, List.filter_cons, h] at ih ⊢ <;>
      simpa [countClosed, fanIn, dictValues] using ih

theorem heapGet_set_self (h : List (Nat × BrowserStateData)) (sid : Nat)
    (f : BrowserStateData → BrowserStateData) :
    heapGet (heapSet h sid f) sid = (heapGet h sid).map f := by
  induction h with
  | nil => rfl
  | cons p rest ih =>
    obtain ⟨i, d⟩ := p
    by_cases h1 : i = sid <;> simp [heapSet, heapGet, h1, ih]

theorem heapGet_set_ne (h : List (Nat × BrowserStateData)) (sid s : Nat)
    (f : BrowserStateData → BrowserStateData) (hne : s ≠ sid) :
    heapGet (heapSet h sid f) s = heapGet h s := by
  induction h with
  | nil => rfl
  | cons p rest ih =>
    obtain ⟨i, d⟩ := p
    by_cases h1 : i = sid
    · subst h1
      have h2 : ¬ i = s := fun hc => hne hc.symm
      simp [heapSet, heapGet, h2]
    · by_cases h2 : i = s <;> simp [heapSet, heapGet, h1, h2, hne, ih]

theorem heapGet_mem (h : List (Nat × BrowserStateData)) (i : Nat) (d : BrowserStateData)
    (hg : heapGet h i = some d) : (i, d) ∈ h := by
  induction h with
  | nil => simp [heapGet] at hg
  | cons p rest ih =>
    obtain ⟨j, e⟩ := p
    by_cases h1 : j = i
    · subst h1
      simp [heapGet] at hg
      simp [hg]
    · simp [heapGet, h1] at hg
      exact List.mem_cons_of_mem _ (ih hg)

theorem heapSet_mem (h : List (Nat × BrowserStateData)) (sid : Nat)
    (f : BrowserStateData → BrowserStateData) (i : Nat) (d : BrowserStateData)
    (hm : (i, d) ∈ heapSet h sid f) : ∃ d0, (i, d0) ∈ h := by
  induction h with
  | nil => simp [heapSet] at hm
  | cons p rest ih =>
    obtain ⟨j, e⟩ := p
    by_cases h1 : j = sid
    · simp [heapSet, h1] at hm
      rcases hm with ⟨hj, _⟩ | hm
      · exact ⟨e, by simp [hj, h1]⟩
      · exact ⟨d, List.mem_cons_of_mem _ hm⟩
    · simp [heapSet, h1] at hm
      rcases hm with ⟨hj, hd⟩ | hm
      · exact ⟨e, by simp [hj]⟩
      · obtain ⟨d0, hd0⟩ := ih hm
        exact ⟨d0, List.mem_cons_of_mem _ hd0⟩

/-! ### Registry invariants and reachable states -/

/-- Every registered key points at a session whose page handle is
non-null. -/
def PageInv (m : Manager) : Prop :=
  ∀ k sid, dictLookup m.pages k = some sid → (heapGetD m.heap sid).page.isSome = true

/-- Every heap identifier is below the allocation counter. -/
def FreshInv (m : Manager) : Prop :=
  ∀ i d, (i, d) ∈ m.heap → i < m.nextId

/-- The registry invariant maintained by all public operations. -/
def Inv (m : Manager) : Prop := PageInv m ∧ FreshInv m

/-- Registry states reachable from the empty initial state by the
public operations. -/
inductive Reachable : Manager → Prop where
  | init : Reachable Manager.init
  | createTask {m : Manager} (task : Task) (drv : DriverResult) :
      Reachable m → Reachable (get_or_create_for_task m task drv).2
  | createWorkflowRun {m : Manager} (wr : WorkflowRun) (url : Option String)
      (drv : DriverResult) :
      Reachable m → Reachable (get_or_create_for_workflow_run m wr url drv).2
  | setVideo {m : Manager} (task : Task) (arts : List VideoArtifact) :
      Reachable m → Reachable (set_video_artifact_for_task m task arts).2
  | cleanupTask {m : Manager} (task_id : String) (cboc : Bool) :
      Reachable m → Reachable (cleanup_for_task m task_id cboc).2
  | cleanupWorkflowRun {m : Manager} (wrid : String) (task_ids : List String) (cboc : Bool) :
      Reachable m → Reachable (cleanup_for_workflow_run m wrid task_ids cboc).2
  | closeEverything {m : Manager} : Reachable m → Reachable (closeAll m)

theorem referenced_lt_next (m : Manager) (hInv : Inv m) (k : String) (sid : Nat)
    (h : dictLookup m.pages k = some sid) : sid < m.nextId := by
  obtain ⟨hp, hf⟩ := hInv
  have hps := hp k sid h
  cases hg : heapGet m.heap sid with
  | none => simp [heapGetD, hg, defaultBSD] at hps
  | some d => exact hf sid d (heapGet_mem _ _ _ hg)

theorem heapGetD_cons_ne (h : List (Nat × BrowserStateData)) (i sid : Nat)
    (d : BrowserStateData) (hne : i ≠ sid) : heapGetD ((i, d) :: h) sid = heapGetD h sid := by
  simp [heapGetD, heapGet, hne]

theorem pageInv_extend (m : Manager) (hp : PageInv m) (hf : FreshInv m)
    (dnew : BrowserStateData) (s : Nat)
    (hs : (s = m.nextId ∧ dnew.page.isSome = true) ∨ ∃ k, dictLookup m.pages k = some s) :
    (heapGetD ((m.nextId, dnew) :: m.heap) s).page.isSome = true := by
  rcases hs with ⟨hs, hpage⟩ | ⟨k, hk⟩
  · subst hs
    simp [heapGetD, heapGet, hpage]
  · have hlt := referenced_lt_next m ⟨hp, hf⟩ k s hk
    rw [heapGetD_cons_ne _ _ _ _ (Nat.ne_of_lt hlt).symm]
    exact hp k s hk

theorem freshInv_extend (m : Manager) (hf : FreshInv m) (dnew : BrowserStateData) :
    ∀ i d, (i, d) ∈ (m.nextId, dnew) :: m.heap → i < m.nextId + 1 := by
  intro i d hm
  rcases List.mem_cons.mp hm with h | h
  · injection h with h1 h2
    subst h1
    exact Nat.lt_succ_self _
  · exact Nat.lt_succ_of_lt (hf i d h)

theorem inv_of_pages_narrow (m m' : Manager) (hheap : m'.heap = m.heap)
    (hnext : m'.nextId = m.nextId)
    (hpages : ∀ k s, dictLookup m'.pages k = some s → dictLookup m.pages k = some s)
    (hInv : Inv m) : Inv m' := by
  obtain ⟨hp, hf⟩ := hInv
  constructor
  · intro k s hs
    rw [hheap]
    exact hp k s (hpages k s hs)
  · intro i d hm
    rw [hnext]
    exact hf i d (hheap ▸ hm)

theorem inv_heapSet_attach (m : Manager) (sid : Nat) (arts : List VideoArtifact)
    (hInv : Inv m) : Inv { m with heap := heapSet m.heap sid (attachVideo arts) } := by
  obtain ⟨hp, hf⟩ := hInv
  constructor
  · intro k s hs
    have hbase := hp k s hs
    by_cases he : s = sid
    · subst he
      cases hg : heapGet m.heap s with
      | none =>
        simp [heapGetD, hg, defaultBSD] at hbase
      | some d =>
        simp only [heapGetD, hg, Option.getD] at hbase
        simp [heapGetD, heapGet_set_self, hg, attachVideo, hbase]
    · simp only [heapGetD]
      rw [heapGet_set_ne _ _ _ _ he]
      exact hbase
  · intro i d hm
    obtain ⟨d0, hd0⟩ := heapSet_mem _ _ _ _ _ hm
    exact hf i d0 hd0

theorem setVideo_snd (m : Manager) (task : Task) (arts : List VideoArtifact) :
    (set_video_artifact_for_task m task arts).2 = m ∨
    ∃ sid, (set_video_artifact_for_task m task arts).2 =
      { m with heap := heapSet m.heap sid (attachVideo arts) } := by
  unfold set_video_artifact_for_task
  by_cases hc : (optStrTruthy task.workflow_run_id
      && (dictLookup m.pages (task.workflow_run_id.getD "")).isSome) = true
  · rw [if_pos hc]
    cases hw : dictLookup m.pages (task.workflow_run_id.getD "") with
    | some sid => exact Or.inr ⟨sid, by simp⟩
    | none => exact Or.inl rfl
  · rw [if_neg hc]
    cases ht : dictLookup m.pages task.task_id with
    | some sid => exact Or.inr ⟨sid, by simp⟩
    | none => exact Or.inl rfl

/-- The session data produced by a successful creation: the driver's
artifact bundle, a live context, and a page bound to the target URL. -/
def freshSession (arts : BrowserArtifacts) (dur : Nat) (url : Option String) :
    BrowserStateData :=
  { page := some { url := url }, browser_context := true, artifacts := arts
    closeDuration := dur }

theorem create_task_ok (m : Manager) (task : Task) (arts : BrowserArtifacts) (dur : Nat)
    (h1 : dictLookup m.pages task.task_id = none)
    (h2 : task.workflow_run_id.bind (fun w => dictLookup m.pages w) = none) :
    get_or_create_for_task m task (.ok arts dur) =
      (.ok m.nextId,
        { m with
            pages :=
              if optStrTruthy task.workflow_run_id then
                dictInsert (dictInsert m.pages task.task_id m.nextId)
                  (task.workflow_run_id.getD "") m.nextId
              else dictInsert m.pages task.task_id m.nextId
            heap := (m.nextId, freshSession arts dur task.url) :: m.heap
            nextId := m.nextId + 1 }) := by
  simp [get_or_create_for_task, h1, h2, getOrCreatePage, freshSession]

theorem create_wr_ok (m : Manager) (wr : WorkflowRun) (url : Option String)
    (arts : BrowserArtifacts) (dur : Nat)
    (h1 : dictLookup m.pages wr.workflow_run_id = none) :
    get_or_create_for_workflow_run m wr url (.ok arts dur) =
      (.ok m.nextId,
        { m with
            pages := dictInsert m.pages wr.workflow_run_id m.nextId
            heap := (m.nextId, freshSession arts dur url) :: m.heap
            nextId := m.nextId + 1 }) := by
  simp [get_or_create_for_workflow_run, h1, getOrCreatePage, freshSession]

theorem inv_createTask (m : Manager) (task : Task) (drv : DriverResult) (hInv : Inv m) :
    Inv (get_or_create_for_task m task drv).2 := by
  obtain ⟨hp, hf⟩ := hInv
  cases h1 : dictLookup m.pages task.task_id with
  | some sid => simpa [get_or_create_for_task, h1] using And.intro hp hf
  | none =>
    cases h2 : task.workflow_run_id.bind (fun w => dictLookup m.pages w) with
    | some sid =>
      obtain ⟨w, hw, hlw⟩ := Option.bind_eq_some.mp h2
      have hres : (get_or_create_for_task m task drv).2 =
          { m with pages := dictInsert m.pages task.task_id sid } := by
        simp [get_or_create_for_task, h1, h2]
      rw [hres]
      constructor
      · intro k s hs
        simp only [dictLookup_insert] at hs
        by_cases hk : task.task_id = k
        · rw [if_pos hk] at hs
          injection hs with hs
          subst hs
          exact hp w _ hlw
        · rw [if_neg hk] at hs
          exact hp k s hs
      · exact hf
    | none =>
      cases drv with
      | failCreate e =>
        simpa [get_or_create_for_task, h1, h2] using And.intro hp hf
      | failEnsurePage e =>
        have hres : (get_or_create_for_task m task (.failEnsurePage e)).2.pages = m.pages ∧
            (get_or_create_for_task m task (.failEnsurePage e)).2.heap =
              (m.nextId, { page := none, browser_context := true
                           artifacts := { video_artifacts := [], har_path := none
                                          traces_dir := none }
                           closeDuration := 0 }) :: m.heap ∧
            (get_or_create_for_task m task (.failEnsurePage e)).2.nextId = m.nextId + 1 := by
          refine ⟨?_, ?_, ?_⟩ <;> simp [get_or_create_for_task, h1, h2]
        obtain ⟨hpg, hhp, hnx⟩ := hres
        constructor
        · intro k s hs
          rw [hpg] at hs
          rw [hhp]
          exact pageInv_extend m hp hf _ s (Or.inr ⟨k, hs⟩)
        · intro i d hm
          rw [hhp] at hm
          rw [hnx]
          exact freshInv_extend m hf _ i d hm
      | ok arts dur =>
        rw [create_task_ok m task arts dur h1 h2]
        constructor
        · intro k s hs
          simp only at hs
          by_cases ht : optStrTruthy task.workflow_run_id = true
          · rw [if_pos ht] at hs
            simp only [dictLookup_insert] at hs
            by_cases hk1 : task.workflow_run_id.getD "" = k
            · rw [if_pos hk1] at hs
              injection hs with hs
              subst hs
              exact pageInv_extend m hp hf _ _ (Or.inl ⟨rfl, by simp [freshSession]⟩)
            · rw [if_neg hk1] at hs
              by_cases hk2 : task.task_id = k
              · rw [if_pos hk2] at hs
                injection hs with hs
                subst hs
                exact pageInv_extend m hp hf _ _ (Or.inl ⟨rfl, by simp [freshSession]⟩)
              · rw [if_neg hk2] at hs
                exact pageInv_extend m hp hf _ s (Or.inr ⟨k, hs⟩)
          · rw [if_neg ht] at hs
            simp only [dictLookup_insert] at hs
            by_cases hk2 : task.task_id = k
            · rw [if_pos hk2] at hs
              injection hs with hs
              subst hs
              exact pageInv_extend m hp hf _ _ (Or.inl ⟨rfl, by simp [freshSession]⟩)
            · rw [if_neg hk2] at hs
              exact pageInv_extend m hp hf _ s (Or.inr ⟨k, hs⟩)
        · intro i d hm
          exact freshInv_extend m hf _ i d hm

theorem inv_createWorkflowRun (m : Manager) (wr : WorkflowRun) (url : Option String)
    (drv : DriverResult) (hInv : Inv m) :
    Inv (get_or_create_for_workflow_run m wr url drv).2 := by
  obtain ⟨hp, hf⟩ := hInv
  cases h1 : dictLookup m.pages wr.workflow_run_id with
  | some sid => simpa [get_or_create_for_workflow_run, h1] using And.intro hp hf
  | none =>
    cases drv with
    | failCreate e =>
      simpa [get_or_create_for_workflow_run, h1] using And.intro hp hf
    | failEnsurePage e =>
      have hres : (get_or_create_for_workflow_run m wr url (.failEnsurePage e)).2.pages = m.pages ∧
          (get_or_create_for_workflow_run m wr url (.failEnsurePage e)).2.heap =
            (m.nextId, { page := none, browser_context := true
                         artifacts := { video_artifacts := [], har_path := none
                                        traces_dir := none }
                         closeDuration := 0 }) :: m.heap ∧
          (get_or_create_for_workflow_run m wr url (.failEnsurePage e)).2.nextId = m.nextId + 1 := by
        refine ⟨?_, ?_, ?_⟩ <;> simp [get_or_create_for_workflow_run, h1]
      obtain ⟨hpg, hhp, hnx⟩ := hres
      constructor
      · intro k s hs
        rw [hpg] at hs
        rw [hhp]
        exact pageInv_extend m hp hf _ s (Or.inr ⟨k, hs⟩)
      · intro i d hm
        rw [hhp] at hm
        rw [hnx]
        exact freshInv_extend m hf _ i d hm
    | ok arts dur =>
      rw [create_wr_ok m wr url arts dur h1]
      constructor
      · intro k s hs
        simp only [dictLookup_insert] at hs
        by_cases hk : wr.workflow_run_id = k
        · rw [if_pos hk] at hs
          injection hs with hs
          subst hs
          exact pageInv_extend m hp hf _ _ (Or.inl ⟨rfl, by simp [freshSession]⟩)
        · rw [if_neg hk] at hs
          exact pageInv_extend m hp hf _ s (Or.inr ⟨k, hs⟩)
      · intro i d hm
        exact freshInv_extend m hf _ i d hm

theorem inv_setVideo (m : Manager) (task : Task) (arts : List VideoArtifact) (hInv : Inv m) :
    Inv (set_video_artifact_for_task m task arts).2 := by
  rcases setVideo_snd m task arts with h | ⟨sid, h⟩
  · rw [h]; exact hInv
  · rw [h]; exact inv_heapSet_attach m sid arts hInv

theorem inv_cleanupTask (m : Manager) (task_id : String) (cboc : Bool) (hInv : Inv m) :
    Inv (cleanup_for_task m task_id cboc).2 := by
  have hpg : ∀ k s, dictLookup (cleanup_for_task m task_id cboc).2.pages k = some s →
      dictLookup m.pages k = some s := by
    intro k s hs
    have hpp : (cleanup_for_task m task_id cboc).2.pages = dictPop m.pages task_id := by
      cases h1 : dictLookup m.pages task_id with
      | none => simp [cleanup_for_task, h1]
      | some sid =>
        by_cases hd : (heapGetD m.heap sid).closeDuration ≤ BROWSER_CLOSE_TIMEOUT <;>
          simp [cleanup_for_task, h1, hd]
    rw [hpp, dictLookup_pop] at hs
    by_cases hk : task_id = k
    · simp [hk] at hs
    · rw [if_neg hk] at hs
      exact hs
  have hhp : (cleanup_for_task m task_id cboc).2.heap = m.heap := by
    cases h1 : dictLookup m.pages task_id with
    | none => simp [cleanup_for_task, h1]
    | some sid =>
      by_cases hd : (heapGetD m.heap sid).closeDuration ≤ BROWSER_CLOSE_TIMEOUT <;>
        simp [cleanup_for_task, h1, hd]
  have hnx : (cleanup_for_task m task_id cboc).2.nextId = m.nextId := by
    cases h1 : dictLookup m.pages task_id with
    | none => simp [cleanup_for_task, h1]
    | some sid =>
      by_cases hd : (heapGetD m.heap sid).closeDuration ≤ BROWSER_CLOSE_TIMEOUT <;>
        simp [cleanup_for_task, h1, hd]
  exact inv_of_pages_narrow m _ hhp hnx hpg hInv

theorem inv_cleanupWorkflowRun (m : Manager) (wrid : String) (task_ids : List String)
    (cboc : Bool) (hInv : Inv m) : Inv (cleanup_for_workflow_run m wrid task_ids cboc).2 := by
  have hpp : (cleanup_for_workflow_run m wrid task_ids cboc).2.pages =
      task_ids.foldl dictPop (dictPop m.pages wrid) := by
    cases h1 : dictLookup m.pages wrid with
    | none => simp [cleanup_for_workflow_run, h1]
    | some sid => simp [cleanup_for_workflow_run, h1]
  have hhp : (cleanup_for_workflow_run m wrid task_ids cboc).2.heap = m.heap := by
    cases h1 : dictLookup m.pages wrid with
    | none => simp [cleanup_for_workflow_run, h1]
    | some sid => simp [cleanup_for_workflow_run, h1]
  have hnx : (cleanup_for_workflow_run m wrid task_ids cboc).2.nextId = m.nextId := by
    cases h1 : dictLookup m.pages wrid with
    | none => simp [cleanup_for_workflow_run, h1]
    | some sid => simp [cleanup_for_workflow_run, h1]
  refine inv_of_pages_narrow m _ hhp hnx ?_ hInv
  intro k s hs
  rw [hpp] at hs
  have h2 := dictLookup_foldl_pop_some task_ids (dictPop m.pages wrid) k s hs
  rw [dictLookup_pop] at h2
  by_cases hk : wrid = k
  · simp [hk] at h2
  · rw [if_neg hk] at h2
    exact h2

theorem inv_closeAll (m : Manager) (hInv : Inv m) : Inv (closeAll m) := by
  obtain ⟨hp, hf⟩ := hInv
  constructor
  · intro k s hs
    simp [closeAll, dictLookup] at hs
  · intro i d hm
    exact hf i d hm

theorem reachable_inv (m : Manager) (h : Reachable m) : Inv m := by
  induction h with
  | init =>
    constructor
    · intro k s hs
      simp [Manager.init, dictLookup] at hs
    · intro i d hm
      simp [Manager.init] at hm
  | createTask task drv _ ih => exact inv_createTask _ task drv ih
  | createWorkflowRun wr url drv _ ih => exact inv_createWorkflowRun _ wr url drv ih
  | setVideo task arts _ ih => exact inv_setVideo _ task arts ih
  | cleanupTask task_id cboc _ ih => exact inv_cleanupTask _ task_id cboc ih
  | cleanupWorkflowRun wrid task_ids cboc _ ih => exact inv_cleanupWorkflowRun _ wrid task_ids cboc ih
  | closeEverything _ ih => exact inv_closeAll _ ih

/-! ### Characterizations used by the claim theorems -/

theorem dictLookup_append (d e : List (String × Nat)) (k : String) :
    dictLookup (d ++ e) k =
      match dictLookup d k with
      | some v => some v
      | none => dictLookup e k := by
  induction d with
  | nil => simp [dictLookup]
  | cons p rest ih =>
    obtain ⟨k1, v1⟩ := p
    by_cases h1 : k1 = k <;> simp [dictLookup, h1, ih]

theorem task_ok_lookup (m : Manager) (task : Task) (drv : DriverResult) (sid : Nat)
    (m' : Manager) (h : get_or_create_for_task m task drv = (.ok sid, m')) :
    dictLookup m'.pages task.task_id = some sid := by
  cases h1 : dictLookup m.pages task.task_id with
  | some s =>
    simp only [get_or_create_for_task, h1] at h
    injection h with h2 h3
    injection h2 with h4
    subst h4
    subst h3
    exact h1
  | none =>
    cases h2 : task.workflow_run_id.bind (fun w => dictLookup m.pages w) with
    | some s =>
      simp only [get_or_create_for_task, h1, h2] at h
      injection h with h3 h4
      injection h3 with h5
      subst h5
      subst h4
      simp [dictLookup_insert]
    | none =>
      cases drv with
      | failCreate e => simp [get_or_create_for_task, h1, h2] at h
      | failEnsurePage e => simp [get_or_create_for_task, h1, h2] at h
      | ok arts dur =>
        rw [create_task_ok m task arts dur h1 h2] at h
        injection h with h3 h4
        injection h3 with h5
        subst h5
        subst h4
        by_cases ht : optStrTruthy task.workflow_run_id = true
        · simp only [if_pos ht, dictLookup_insert]
          by_cases hw : task.workflow_run_id.getD "" = task.task_id <;> simp [hw]
        · simp only [if_neg ht, dictLookup_insert]
          simp

theorem wr_ok_lookup (m : Manager) (wr : WorkflowRun) (url : Option String)
    (drv : DriverResult) (sid : Nat) (m' : Manager)
    (h : get_or_create_for_workflow_run m wr url drv = (.ok sid, m')) :
    dictLookup m'.pages wr.workflow_run_id = some sid := by
  cases h1 : dictLookup m.pages wr.workflow_run_id with
  | some s =>
    simp only [get_or_create_for_workflow_run, h1] at h
    injection h with h2 h3
    injection h2 with h4
    subst h4
    subst h3
    exact h1
  | none =>
    cases drv with
    | failCreate e => simp [get_or_create_for_workflow_run, h1] at h
    | failEnsurePage e => simp [get_or_create_for_workflow_run, h1] at h
    | ok arts dur =>
      rw [create_wr_ok m wr url arts dur h1] at h
      injection h with h3 h4
      injection h3 with h5
      subst h5
      subst h4
      simp [dictLookup_insert]

theorem countClosed_single_closed (sid : Nat) (b : Bool) (s : Nat) :
    countClosed [Event.closed sid b] s = if sid = s then 1 else 0 := by
  by_cases h : sid = s
  · simp [countClosed, h]
  · have hb : (sid == s) = false := by simpa using h
    simp [countClosed, hb, h]

theorem countClosed_single_trace (sid : Nat) (p : String) (s : Nat) :
    countClosed [Event.traceStopped sid p] s = 0 := by
  simp [countClosed]

theorem countClosed_single_warn (key : String) (s : Nat) :
    countClosed [Event.timeoutWarn key] s = 0 := by
  simp [countClosed]

theorem countClosed_teardown (d : BrowserStateData) (sid : Nat) (key : String) (b : Bool)
    (s : Nat) : countClosed (teardownEvents d sid key b) s = if sid = s then 1 else 0 := by
  unfold teardownEvents
  by_cases hc : (d.browser_context && optStrTruthy d.artifacts.traces_dir) = true
  · rw [if_pos hc, countClosed_append, countClosed_single_trace, countClosed_single_closed]
    simp
  · rw [if_neg hc]
    simpa using countClosed_single_closed sid b s

/-! ### Concrete fixtures -/

/-- An artifact bundle with tracing configured. -/
def sampleArts : BrowserArtifacts :=
  { video_artifacts := [], har_path := some "h.har", traces_dir := some "traces" }

/-- Task `t1`, member of workflow run `w1`. -/
def taskT1 : Task :=
  { task_id := "t1", workflow_run_id := some "w1", url := some "https://example.com"
    proxy_location := none, organization_id := none }

/-- Task `t2`, member of the same workflow run `w1`. -/
def taskT2 : Task :=
  { task_id := "t2", workflow_run_id := some "w1", url := some "https://example.com"
    proxy_location := none, organization_id := none }

/-- Workflow run `w1`. -/
def wrW1 : WorkflowRun :=
  { workflow_run_id := "w1", proxy_location := none, organization_id := none }

/-- Registry after creating a session for `t1`: one session (id 0)
registered under the two keys `t1` and `w1`. -/
def mAlias : Manager := (get_or_create_for_task Manager.init taskT1 (.ok sampleArts 5)).2

/-- Registry after `t2` of the same workflow run also asked for a
session: the one session is now registered under three keys. -/
def mFanIn3 : Manager := (get_or_create_for_task mAlias taskT2 (.ok sampleArts 5)).2

/-- Registry holding one aliased session whose close takes longer than
the close timeout. -/
def mSlow : Manager := (get_or_create_for_task Manager.init taskT1 (.ok sampleArts 181)).2

/-- Registry after creating a session for workflow run `w1` alone. -/
def mW : Manager :=
  (get_or_create_for_workflow_run Manager.init wrW1 (some "https://example.com")
    (.ok sampleArts 5)).2

/-! ### Claims -/

/-- C1 (counterexample): the whole-registry shutdown is claimed to
release each distinct session exactly once even under aliasing; in the
reachable state where session 0 is registered under the two keys `t1`
and `w1`, `close` releases it twice (once per dict value). -/
theorem C1_counterexample :
    Reachable mAlias ∧
    mAlias.pages = [("t1", 0), ("w1", 0)] ∧
    countClosed (closeAll mAlias).events 0 = 2 ∧
    (closeAll mAlias).pages = [] :=
  ⟨Reachable.createTask taskT1 (.ok sampleArts 5) Reachable.init, by decide, by decide, by decide⟩

/-- C1 (amended): the whole-registry shutdown leaves the registry empty
and releases each session once per registry key that references it (its
fan-in) — an aliased session is released once per alias, not exactly
once. -/
theorem C1_close_releases_once_per_key (m : Manager) (sid : Nat) :
    (closeAll m).pages = [] ∧
    countClosed (closeAll m).events sid = countClosed m.events sid + fanIn m.pages sid := by
  constructor
  · rfl
  · have hev : (closeAll m).events =
        m.events ++ (dictValues m.pages).map (fun s => Event.closed s true) := rfl
    rw [hev, countClosed_append, countClosed_values]

/-- C2 (counterexample): the claim bounds each session's fan-in by two
keys in every reachable state; after `t1` and then `t2` of the same
workflow run `w1` request sessions, the single session 0 is referenced
by the three keys `t1`, `w1` and `t2`. -/
theorem C2_counterexample :
    Reachable mFanIn3 ∧
    mFanIn3.pages = [("t1", 0), ("w1", 0), ("t2", 0)] ∧
    fanIn mFanIn3.pages 0 = 3 :=
  ⟨Reachable.createTask taskT2 (.ok sampleArts 5)
      (Reachable.createTask taskT1 (.ok sampleArts 5) Reachable.init),
    by decide, by decide⟩

theorem fanIn_insert_new (d : List (String × Nat)) (k : String) (v : Nat)
    (h : dictLookup d k = none) (s : Nat) :
    fanIn (dictInsert d k v) s = fanIn d s + (if v = s then 1 else 0) := by
  rw [dictInsert_of_lookup_none d k v h, fanIn_append, fanIn_single]

/-- C2 (amended): a single `get_or_create` call adds at most two
references to the session it returns (primary key plus, for a task with
a parent, the parent key) and leaves every other session's fan-in
unchanged; but fan-in is not bounded by two across calls — each further
task of the same workflow run adds one more alias (see the
three-key state above). -/
theorem C2_fanin_per_call (m : Manager) (sid : Nat) (m' : Manager) :
    (∀ (task : Task) (drv : DriverResult),
      get_or_create_for_task m task drv = (.ok sid, m') →
      fanIn m'.pages sid ≤ fanIn m.pages sid + 2 ∧
      ∀ t, t ≠ sid → fanIn m'.pages t = fanIn m.pages t) ∧
    (∀ (wr : WorkflowRun) (url : Option String) (drv : DriverResult),
      get_or_create_for_workflow_run m wr url drv = (.ok sid, m') →
      fanIn m'.pages sid ≤ fanIn m.pages sid + 1 ∧
      ∀ t, t ≠ sid → fanIn m'.pages t = fanIn m.pages t) := by
  constructor
  · intro task drv h
    cases h1 : dictLookup m.pages task.task_id with
    | some s =>
      simp only [get_or_create_for_task, h1] at h
      injection h with h2 h3
      injection h2 with h4
      subst h4
      subst h3
      exact ⟨Nat.le_add_right _ _, fun t _ => rfl⟩
    | none =>
      cases h2 : task.workflow_run_id.bind (fun w => dictLookup m.pages w) with
      | some s =>
        simp only [get_or_create_for_task, h1, h2] at h
        injection h with h3 h4
        injection h3 with h5
        subst h5
        subst h4
        constructor
        · simp only [fanIn_insert_new m.pages task.task_id s h1 s]
          simp
        · intro t ht
          have hne : ¬ s = t := fun hh => ht hh.symm
          simp only [fanIn_insert_new m.pages task.task_id s h1 t, if_neg hne]
          simp
      | none =>
        cases drv with
        | failCreate e => simp [get_or_create_for_task, h1, h2] at h
        | failEnsurePage e => simp [get_or_create_for_task, h1, h2] at h
        | ok arts dur =>
          rw [create_task_ok m task arts dur h1 h2] at h
          injection h with h3 h4
          injection h3 with h5
          subst h5
          subst h4
          dsimp only
          cases hw : task.workflow_run_id with
          | none =>
            have hcond : ¬ optStrTruthy (none : Option String) = true := by
              simp [optStrTruthy]
            rw [if_neg hcond]
            constructor
            · rw [fanIn_insert_new m.pages task.task_id m.nextId h1 m.nextId]
              simp
            · intro t ht
              have hne : ¬ m.nextId = t := fun hh => ht hh.symm
              rw [fanIn_insert_new m.pages task.task_id m.nextId h1 t, if_neg hne]
              simp
          | some w0 =>
            have h2w : dictLookup m.pages w0 = none := by simpa [hw] using h2
            by_cases hwe : w0 = ""
            · have hcond : ¬ optStrTruthy (some w0) = true := by
                simp [optStrTruthy, hwe]
              rw [if_neg hcond]
              constructor
              · rw [fanIn_insert_new m.pages task.task_id m.nextId h1 m.nextId]
                simp
              · intro t ht
                have hne : ¬ m.nextId = t := fun hh => ht hh.symm
                rw [fanIn_insert_new m.pages task.task_id m.nextId h1 t, if_neg hne]
                simp
            · have htr : optStrTruthy (some w0) = true := by
                simp [optStrTruthy, hwe]
              rw [if_pos htr, Option.getD_some]
              by_cases hwt : w0 = task.task_id
              · have hlk1 : dictLookup (dictInsert m.pages task.task_id m.nextId) w0 =
                    some m.nextId := by
                  rw [hwt, dictLookup_insert]
                  simp
                rw [dictInsert_of_lookup_self _ _ _ hlk1]
                constructor
                · rw [fanIn_insert_new m.pages task.task_id m.nextId h1 m.nextId]
                  simp
                · intro t ht
                  have hne : ¬ m.nextId = t := fun hh => ht hh.symm
                  rw [fanIn_insert_new m.pages task.task_id m.nextId h1 t, if_neg hne]
                  simp
              · have hlk1 : dictLookup (dictInsert m.pages task.task_id m.nextId) w0 = none := by
                  rw [dictLookup_insert, if_neg (fun hh => hwt hh.symm), h2w]
                constructor
                · rw [fanIn_insert_new _ w0 m.nextId hlk1 m.nextId,
                    fanIn_insert_new m.pages task.task_id m.nextId h1 m.nextId]
                  simp
                · intro t ht
                  have hne : ¬ m.nextId = t := fun hh => ht hh.symm
                  rw [fanIn_insert_new _ w0 m.nextId hlk1 t,
                    fanIn_insert_new m.pages task.task_id m.nextId h1 t, if_neg hne]
                  simp [if_neg hne]
  · intro wr url drv h
    cases h1 : dictLookup m.pages wr.workflow_run_id with
    | some s =>
      simp only [get_or_create_for_workflow_run, h1] at h
      injection h with h2 h3
      injection h2 with h4
      subst h4
      subst h3
      exact ⟨Nat.le_add_right _ _, fun t _ => rfl⟩
    | none =>
      cases drv with
      | failCreate e => simp [get_or_create_for_workflow_run, h1] at h
      | failEnsurePage e => simp [get_or_create_for_workflow_run, h1] at h
      | ok arts dur =>
        rw [create_wr_ok m wr url arts dur h1] at h
        injection h with h3 h4
        injection h3 with h5
        subst h5
        subst h4
        constructor
        · rw [fanIn_insert_new m.pages wr.workflow_run_id m.nextId h1 m.nextId]
          simp
        · intro t ht
          have hne : ¬ m.nextId = t := fun hh => ht hh.symm
          rw [fanIn_insert_new m.pages wr.workflow_run_id m.nextId h1 t, if_neg hne]
          simp

/-- C2 (amended, witness): the per-call fan-in bound applied to the
concrete creation of task `t1` from the empty registry. -/
theorem C2_fanin_per_call_witness :
    fanIn mAlias.pages 0 ≤ fanIn Manager.init.pages 0 + 2 :=
  ((C2_fanin_per_call Manager.init 0 mAlias).1 taskT1 (.ok sampleArts 5) rfl).1

/-- C3 (counterexample): the group teardown is claimed to perform "the
same bounded-deadline teardown sequence" as the single-key teardown; in
the reachable state `mSlow` whose session's close takes longer than the
close timeout, `cleanup_for_workflow_run` still completes the close (no
timeout warning is ever logged), whereas `cleanup_for_task` on the very
same registry abandons the close and logs the timeout — the group
variant has no deadline at all. -/
theorem C3_counterexample :
    Reachable mSlow ∧
    BROWSER_CLOSE_TIMEOUT < (heapGetD mSlow.heap 0).closeDuration ∧
    countClosed (cleanup_for_workflow_run mSlow "w1" ["t1"] true).2.events 0 = 1 ∧
    (Event.timeoutWarn "w1" ∈ (cleanup_for_workflow_run mSlow "w1" ["t1"] true).2.events) = False ∧
    countClosed (cleanup_for_task mSlow "w1" true).2.events 0 = 0 ∧
    Event.timeoutWarn "w1" ∈ (cleanup_for_task mSlow "w1" true).2.events :=
  ⟨Reachable.createTask taskT1 (.ok sampleArts 181) Reachable.init,
    by decide, by decide, by decide, by decide, by decide⟩

/-- C3 (amended): `cleanup_for_workflow_run` stops tracing to the path
derived from the parent key and closes the parent key's session exactly
once — with no deadline bound — then removes every member key's entry
without closing it; afterwards the parent key and all member keys are
absent from the registry. -/
theorem C3_cleanup_group (m : Manager) (wrid : String) (task_ids : List String) (cboc : Bool) :
    dictLookup (cleanup_for_workflow_run m wrid task_ids cboc).2.pages wrid = none ∧
    (∀ t, t ∈ task_ids →
      dictLookup (cleanup_for_workflow_run m wrid task_ids cboc).2.pages t = none) ∧
    (cleanup_for_workflow_run m wrid task_ids cboc).1 = dictLookup m.pages wrid ∧
    (∀ sid, dictLookup m.pages wrid = some sid →
      countClosed (cleanup_for_workflow_run m wrid task_ids cboc).2.events sid =
        countClosed m.events sid + 1 ∧
      (∀ s, s ≠ sid →
        countClosed (cleanup_for_workflow_run m wrid task_ids cboc).2.events s =
          countClosed m.events s) ∧
      ((heapGetD m.heap sid).browser_context = true →
        optStrTruthy (heapGetD m.heap sid).artifacts.traces_dir = true →
        Event.traceStopped sid
            (tracePath ((heapGetD m.heap sid).artifacts.traces_dir.getD "") wrid) ∈
          (cleanup_for_workflow_run m wrid task_ids cboc).2.events)) ∧
    (dictLookup m.pages wrid = none →
      (cleanup_for_workflow_run m wrid task_ids cboc).2.events = m.events) := by
  have hpages : (cleanup_for_workflow_run m wrid task_ids cboc).2.pages =
      task_ids.foldl dictPop (dictPop m.pages wrid) := by
    cases h1 : dictLookup m.pages wrid with
    | none => simp [cleanup_for_workflow_run, h1]
    | some sid => simp [cleanup_for_workflow_run, h1]
  refine ⟨?_, ?_, ?_, ?_, ?_⟩
  · rw [hpages]
    exact dictLookup_foldl_pop_none task_ids _ wrid (by simp [dictLookup_pop])
  · intro t ht
    rw [hpages]
    exact dictLookup_foldl_pop_mem task_ids _ t ht
  · cases h1 : dictLookup m.pages wrid with
    | none => simp [cleanup_for_workflow_run, h1]
    | some sid => simp [cleanup_for_workflow_run, h1]
  · intro sid h1
    have hev : (cleanup_for_workflow_run m wrid task_ids cboc).2.events =
        m.events ++ teardownEvents (heapGetD m.heap sid) sid wrid cboc := by
      simp [cleanup_for_workflow_run, h1]
    refine ⟨?_, ?_, ?_⟩
    · rw [hev, countClosed_append, countClosed_teardown]
      simp
    · intro s hs
      have hne : ¬ sid = s := fun hh => hs hh.symm
      rw [hev, countClosed_append, countClosed_teardown, if_neg hne]
      simp
    · intro hctx htr
      rw [hev]
      unfold teardownEvents
      rw [if_pos (by rw [hctx, htr]; rfl)]
      simp
  · intro h1
    simp [cleanup_for_workflow_run, h1]


/-- C3 (amended, witness): the group teardown applied to the concrete
slow-close registry: both keys end up absent and the one session is
closed exactly once. -/
theorem C3_cleanup_group_witness :
    dictLookup (cleanup_for_workflow_run mSlow "w1" ["t1"] true).2.pages "w1" = none ∧
    dictLookup (cleanup_for_workflow_run mSlow "w1" ["t1"] true).2.pages "t1" = none ∧
    countClosed (cleanup_for_workflow_run mSlow "w1" ["t1"] true).2.events 0 =
      countClosed mSlow.events 0 + 1 :=
  ⟨(C3_cleanup_group mSlow "w1" ["t1"] true).1,
    (C3_cleanup_group mSlow "w1" ["t1"] true).2.1 "t1" (by decide),
    ((C3_cleanup_group mSlow "w1" ["t1"] true).2.2.2.1 0 (by decide)).1⟩

/-- C4: when a registered session's close does not finish within
`BROWSER_CLOSE_TIMEOUT`, `cleanup_for_task` removes the key's entry (a
subsequent lookup is absent), logs a timeout warning instead of raising
(it is a total function appending only `timeoutWarn`, never completing
the close), and still returns the removed session. -/
theorem C4_cleanup_timeout (m : Manager) (task_id : String) (cboc : Bool) (sid : Nat)
    (hfound : dictLookup m.pages task_id = some sid)
    (hslow : BROWSER_CLOSE_TIMEOUT < (heapGetD m.heap sid).closeDuration) :
    cleanup_for_task m task_id cboc =
      (some sid,
        { pages := dictPop m.pages task_id
          heap := m.heap
          nextId := m.nextId
          events := m.events ++ [Event.timeoutWarn task_id] }) ∧
    dictLookup (cleanup_for_task m task_id cboc).2.pages task_id = none ∧
    countClosed (cleanup_for_task m task_id cboc).2.events sid = countClosed m.events sid := by
  have hres : cleanup_for_task m task_id cboc =
      (some sid,
        { pages := dictPop m.pages task_id
          heap := m.heap
          nextId := m.nextId
          events := m.events ++ [Event.timeoutWarn task_id] }) := by
    simp [cleanup_for_task, hfound, Nat.not_le.mpr hslow]
  refine ⟨hres, ?_, ?_⟩
  · rw [hres]
    simp [dictLookup_pop]
  · rw [hres]
    simp [countClosed_append, countClosed_single_warn]

/-- C4 (witness): the timeout path evaluated on the concrete registry
`mSlow`, whose session close takes 181 > 180 abstract time units. -/
theorem C4_cleanup_timeout_witness :
    dictLookup (cleanup_for_task mSlow "t1" true).2.pages "t1" = none ∧
    countClosed (cleanup_for_task mSlow "t1" true).2.events 0 = countClosed mSlow.events 0 :=
  ⟨(C4_cleanup_timeout mSlow "t1" true 0 (by decide) (by decide)).2.1,
    (C4_cleanup_timeout mSlow "t1" true 0 (by decide) (by decide)).2.2⟩

/-- C5: when a task's own key has no entry but its workflow run's key
has a registered session, `get_or_create_for_task` returns exactly that
session, additionally registers it under the task key (creating
nothing: the heap is untouched), and afterwards both keys look up the
identical session. -/
theorem C5_alias_parent (m : Manager) (task : Task) (drv : DriverResult) (w : String)
    (sid : Nat) (htask : dictLookup m.pages task.task_id = none)
    (hw : task.workflow_run_id = some w) (hws : dictLookup m.pages w = some sid) :
    get_or_create_for_task m task drv =
      (.ok sid, { m with pages := dictInsert m.pages task.task_id sid }) ∧
    dictLookup (get_or_create_for_task m task drv).2.pages task.task_id = some sid ∧
    dictLookup (get_or_create_for_task m task drv).2.pages w = some sid ∧
    (get_or_create_for_task m task drv).2.heap = m.heap := by
  have h2 : task.workflow_run_id.bind (fun q => dictLookup m.pages q) = some sid := by
    simp [hw, hws]
  have hres : get_or_create_for_task m task drv =
      (.ok sid, { m with pages := dictInsert m.pages task.task_id sid }) := by
    simp [get_or_create_for_task, htask, h2]
  have hwt : ¬ task.task_id = w := by
    intro hh
    rw [hh, hws] at htask
    exact Option.noConfusion htask
  refine ⟨hres, ?_, ?_, ?_⟩
  · rw [hres]
    simp [dictLookup_insert]
  · rw [hres]
    simp only [dictLookup_insert, if_neg hwt]
    exact hws
  · rw [hres]

/-- C5 (witness): aliasing applied to the concrete registry `mW` that
holds only the workflow-run session of `w1`; afterwards `t1` and `w1`
resolve to the identical session. -/
theorem C5_alias_parent_witness :
    dictLookup (get_or_create_for_task mW taskT1 (.failCreate 0)).2.pages "t1" = some 0 ∧
    dictLookup (get_or_create_for_task mW taskT1 (.failCreate 0)).2.pages "w1" = some 0 :=
  ⟨(C5_alias_parent mW taskT1 (.failCreate 0) "w1" 0 rfl rfl rfl).2.1,
    (C5_alias_parent mW taskT1 (.failCreate 0) "w1" 0 rfl rfl rfl).2.2.1⟩

/-- C6: `get_or_create` is idempotent for both kinds of unit of work:
if a first call returned session `sid` with post-state `m'`, a second
call with the same primary key returns the same `sid` and leaves the
registry state `m'` completely unchanged, whatever the driver would
have produced. -/
theorem C6_get_or_create_idempotent (m : Manager) (sid : Nat) (m' : Manager) :
    (∀ (task : Task) (drv drv2 : DriverResult),
      get_or_create_for_task m task drv = (.ok sid, m') →
      get_or_create_for_task m' task drv2 = (.ok sid, m')) ∧
    (∀ (wr : WorkflowRun) (url url2 : Option String) (drv drv2 : DriverResult),
      get_or_create_for_workflow_run m wr url drv = (.ok sid, m') →
      get_or_create_for_workflow_run m' wr url2 drv2 = (.ok sid, m')) := by
  constructor
  · intro task drv drv2 h
    have hl := task_ok_lookup m task drv sid m' h
    simp [get_or_create_for_task, hl]
  · intro wr url url2 drv drv2 h
    have hl := wr_ok_lookup m wr url drv sid m' h
    simp [get_or_create_for_workflow_run, hl]

/-- C6 (witness): a second `get_or_create` for task `t1` on the
registry `mAlias` produced by the first call returns the same session 0
and the unchanged state. -/
theorem C6_get_or_create_idempotent_witness :
    get_or_create_for_task mAlias taskT1 (.ok sampleArts 5) = (.ok 0, mAlias) :=
  (C6_get_or_create_idempotent Manager.init 0 mAlias).1 taskT1
    (.ok sampleArts 5) (.ok sampleArts 5) rfl


/-- C7: in every reachable registry state, a successful `get_or_create`
(for a task or for a workflow run) leaves the primary key bound to the
returned session, and that session's page handle is non-null. -/
theorem C7_created_page_not_null (m : Manager) (hreach : Reachable m) :
    (∀ (task : Task) (drv : DriverResult) (sid : Nat) (m' : Manager),
      get_or_create_for_task m task drv = (.ok sid, m') →
      dictLookup m'.pages task.task_id = some sid ∧
      (heapGetD m'.heap sid).page.isSome = true) ∧
    (∀ (wr : WorkflowRun) (url : Option String) (drv : DriverResult) (sid : Nat) (m' : Manager),
      get_or_create_for_workflow_run m wr url drv = (.ok sid, m') →
      dictLookup m'.pages wr.workflow_run_id = some sid ∧
      (heapGetD m'.heap sid).page.isSome = true) := by
  constructor
  · intro task drv sid m' h
    have hl := task_ok_lookup m task drv sid m' h
    have hInv : Inv m' := by
      have h2 := inv_createTask m task drv (reachable_inv m hreach)
      rw [h] at h2
      exact h2
    exact ⟨hl, hInv.1 task.task_id sid hl⟩
  · intro wr url drv sid m' h
    have hl := wr_ok_lookup m wr url drv sid m' h
    have hInv : Inv m' := by
      have h2 := inv_createWorkflowRun m wr url drv (reachable_inv m hreach)
      rw [h] at h2
      exact h2
    exact ⟨hl, hInv.1 wr.workflow_run_id sid hl⟩

/-- C7 (witness): creating `t1` from the empty registry leaves key `t1`
bound to session 0, whose page handle is non-null. -/
theorem C7_created_page_not_null_witness :
    dictLookup mAlias.pages taskT1.task_id = some 0 ∧
    (heapGetD mAlias.heap 0).page.isSome = true :=
  (C7_created_page_not_null Manager.init Reachable.init).1 taskT1 (.ok sampleArts 5) 0 mAlias rfl

/-- C8: when the Automation Driver fails during session creation
(either while creating the session or while ensuring its page), the
error propagates unchanged and the registry mapping is not mutated: the
`pages` dict after the call equals the one before, so neither the
primary key nor the parent key gained an entry. -/
theorem C8_driver_failure_no_registry_entry (m : Manager) (e : Nat) :
    (∀ (task : Task) (drv : DriverResult),
      (drv = .failCreate e ∨ drv = .failEnsurePage e) →
      dictLookup m.pages task.task_id = none →
      task.workflow_run_id.bind (fun w => dictLookup m.pages w) = none →
      (get_or_create_for_task m task drv).1 = .error e ∧
      (get_or_create_for_task m task drv).2.pages = m.pages) ∧
    (∀ (wr : WorkflowRun) (url : Option String) (drv : DriverResult),
      (drv = .failCreate e ∨ drv = .failEnsurePage e) →
      dictLookup m.pages wr.workflow_run_id = none →
      (get_or_create_for_workflow_run m wr url drv).1 = .error e ∧
      (get_or_create_for_workflow_run m wr url drv).2.pages = m.pages) := by
  constructor
  · intro task drv hdrv h1 h2
    rcases hdrv with hdrv | hdrv <;> subst hdrv <;>
      exact ⟨by simp [get_or_create_for_task, h1, h2],
        by simp [get_or_create_for_task, h1, h2]⟩
  · intro wr url drv hdrv h1
    rcases hdrv with hdrv | hdrv <;> subst hdrv <;>
      exact ⟨by simp [get_or_create_for_workflow_run, h1],
        by simp [get_or_create_for_workflow_run, h1]⟩

/-- C8 (witness): a failing driver on the empty registry yields the
propagated error and an unchanged (empty) pages dict. -/
theorem C8_driver_failure_no_registry_entry_witness :
    (get_or_create_for_task Manager.init taskT1 (.failCreate 7)).1 = .error 7 ∧
    (get_or_create_for_task Manager.init taskT1 (.failCreate 7)).2.pages =
      Manager.init.pages :=
  (C8_driver_failure_no_registry_entry Manager.init 7).1 taskT1 (.failCreate 7)
    (Or.inl rfl) rfl rfl

/-- C9: `set_video_artifact_for_task` attaches the recordings to the
session found under the task's workflow-run key when that key resolves,
else to the session under the task's own key, and returns the
session-missing error exactly when neither key resolves.  (Well-formed
units of work carry a parent key that is absent or a non-empty
identifier.) -/
theorem C9_record_capture_outputs (m : Manager) (task : Task) (arts : List VideoArtifact)
    (wf : task.workflow_run_id ≠ some "") :
    (∀ w sid, task.workflow_run_id = some w → dictLookup m.pages w = some sid →
      set_video_artifact_for_task m task arts =
        (.ok (), { m with heap := heapSet m.heap sid (attachVideo arts) })) ∧
    (task.workflow_run_id.bind (fun w => dictLookup m.pages w) = none →
      ∀ sid, dictLookup m.pages task.task_id = some sid →
      set_video_artifact_for_task m task arts =
        (.ok (), { m with heap := heapSet m.heap sid (attachVideo arts) })) ∧
    ((set_video_artifact_for_task m task arts).1 = .error () ↔
      task.workflow_run_id.bind (fun w => dictLookup m.pages w) = none ∧
      dictLookup m.pages task.task_id = none) := by
  refine ⟨?_, ?_, ?_⟩
  · intro w sid hw hws
    have hwne : ¬ w = "" := fun hh => wf (by rw [hw, hh])
    simp [set_video_artifact_for_task, hw, optStrTruthy, hwne, hws]
  · intro hbind sid hts
    cases hw : task.workflow_run_id with
    | none => simp [set_video_artifact_for_task, hw, optStrTruthy, hts]
    | some w =>
      have hws : dictLookup m.pages w = none := by simpa [hw] using hbind
      simp [set_video_artifact_for_task, hw, optStrTruthy, hws, hts]
  · cases hw : task.workflow_run_id with
    | none =>
      cases ht : dictLookup m.pages task.task_id with
      | some sid => simp [set_video_artifact_for_task, hw, optStrTruthy, ht]
      | none => simp [set_video_artifact_for_task, hw, optStrTruthy, ht]
    | some w =>
      have hwne : ¬ w = "" := fun hh => wf (by rw [hw, hh])
      cases hws : dictLookup m.pages w with
      | some sid => simp [set_video_artifact_for_task, hw, optStrTruthy, hwne, hws]
      | none =>
        cases ht : dictLookup m.pages task.task_id with
        | some sid => simp [set_video_artifact_for_task, hw, optStrTruthy, hwne, hws, ht]
        | none => simp [set_video_artifact_for_task, hw, optStrTruthy, hwne, hws, ht]

/-- A one-element recording list used for the C9 witness. -/
def vaList : List VideoArtifact := [{ video_path := some "v.webm", video_data := none }]

/-- C9 (witness): attaching a recording list on the concrete aliased
registry targets the workflow-run key's session. -/
theorem C9_record_capture_outputs_witness :
    set_video_artifact_for_task mAlias taskT1 vaList =
      (.ok (), { mAlias with heap := heapSet mAlias.heap 0 (attachVideo vaList) }) :=
  (C9_record_capture_outputs mAlias taskT1 vaList (by decide)).1 "w1" 0 rfl rfl

/-- C10: missing artifact files are never an error: with zero attached
recordings `get_video_artifacts` returns the empty sequence (and leaves
the session untouched); a recording descriptor whose storage path is
absent or does not exist is returned unchanged, so with no payload if
it had none; and `get_har_data` returns the empty byte sequence when
the session is absent or its network-capture path is absent or its file
does not exist.  All three are total functions: nothing is raised. -/
theorem C10_missing_artifacts_not_error (fs : String → Option (List Nat))
    (d : BrowserStateData) (bs : Option BrowserStateData) :
    (d.artifacts.video_artifacts = [] → get_video_artifacts fs d = ([], d)) ∧
    (∀ (i : Nat) (va : VideoArtifact), d.artifacts.video_artifacts[i]? = some va →
      (optStrTruthy va.video_path = false ∨ fs (va.video_path.getD "") = none) →
      (get_video_artifacts fs d).1[i]? = some va) ∧
    (bs = none → get_har_data fs bs = []) ∧
    (∀ e, bs = some e →
      (optStrTruthy e.artifacts.har_path = false ∨ fs (e.artifacts.har_path.getD "") = none) →
      get_har_data fs bs = []) := by
  refine ⟨?_, ?_, ?_, ?_⟩
  · intro h
    simp [get_video_artifacts, h]
  · intro i va hget hmiss
    have hmap : (get_video_artifacts fs d).1 =
        d.artifacts.video_artifacts.map (fun v =>
          if optStrTruthy v.video_path then
            match fs (v.video_path.getD "") with
            | some bytes => { v with video_data := some bytes }
            | none => v
          else v) := by
      by_cases h : d.artifacts.video_artifacts.length = 0
      · have he : d.artifacts.video_artifacts = [] := List.length_eq_zero.mp h
        simp [get_video_artifacts, h, he]
      · simp [get_video_artifacts, h]
    rw [hmap, List.getElem?_map, hget]
    rcases hmiss with hmiss | hmiss
    · simp [hmiss]
    · by_cases ht : optStrTruthy va.video_path = true
      · simp [ht, hmiss]
      · simp [ht]
  · intro h
    simp [get_har_data, h]
  · intro e he hmiss
    subst he
    rcases hmiss with hmiss | hmiss
    · simp [get_har_data, hmiss]
    · by_cases ht : optStrTruthy e.artifacts.har_path = true
      · simp [get_har_data, ht, hmiss]
      · simp [get_har_data, ht]

/-- A recording descriptor whose file does not exist on storage. -/
def vaMissing : VideoArtifact := { video_path := some "missing.webm", video_data := none }

/-- A session with one recording whose file is missing, and a HAR path
whose file is missing. -/
def dOneMissing : BrowserStateData :=
  { page := some { url := none }, browser_context := true
    artifacts := { video_artifacts := [vaMissing], har_path := some "h.har", traces_dir := none }
    closeDuration := 0 }

/-- Storage on which no path exists. -/
def emptyFS : String → Option (List Nat) := fun _ => none

/-- C10 (witness): retrieval on the concrete session with one missing
recording returns the descriptor unchanged (no payload), and HAR
retrieval returns the empty byte sequence for both a missing file and a
missing session. -/
theorem C10_missing_artifacts_not_error_witness :
    (get_video_artifacts emptyFS dOneMissing).1[0]? = some vaMissing ∧
    get_har_data emptyFS (some dOneMissing) = [] ∧
    get_har_data emptyFS none = [] :=
  ⟨(C10_missing_artifacts_not_error emptyFS dOneMissing (some dOneMissing)).2.1 0 vaMissing
      rfl (Or.inr rfl),
    (C10_missing_artifacts_not_error emptyFS dOneMissing (some dOneMissing)).2.2.2 dOneMissing
      rfl (Or.inr rfl),
    (C10_missing_artifacts_not_error emptyFS dOneMissing none).2.2.1 rfl⟩


end BrowserManagerModel
